import Mathlib

/-!
Shallow embedding of the snake-game simulation core (`src/main.rs`).

The source is a Bevy app; we embed only the simulation systems the spec
talks about: `snek_movement`, `snek_movement_input`, `food_spawner`,
`snek_eating`, `snek_growth`, `game_over`, `spawn_snek`, together with the
data they act on (positions, directions, the segment list, the
`LastTailPosition` resource and the two event channels).  Entities carry no
data besides their components, so the segment list is embedded as the list
of segment positions (head first), and food as the list of food positions.
Events are embedded as pending-event counters; a reader acts on presence
and drains the channel, which is how the Bevy event readers behave at the
tick granularity of the spec.  Random draws of the food spawner are passed
in explicitly as rationals in `[0, 1)` standing for the `random::<f32>()`
results, and the unbounded rejection loop is given the finite list of draws,
returning `none` when it runs out.  Fallible code (the `unwrap` in
`snek_growth`) returns `Option`.
-/

/-- Grid width, `const WIDTH: u32 = 30` in the source (as `Int` because
positions are `i32` and the bound checks compare after a sign test). -/
def WIDTH : Int := 30

/-- Grid height, `const HEIGHT: u32 = 30` in the source. -/
def HEIGHT : Int := 30

/-- Grid position, `struct Position { x: i32, y: i32 }`. -/
structure Position where
  x : Int
  y : Int
deriving DecidableEq

/-- Movement direction, `enum Direction`. -/
inductive Direction where
  | Left
  | Right
  | Up
  | Down
deriving DecidableEq

/-- The 180-degree reversal of a direction, `Direction::opposite`. -/
def Direction.opposite : Direction → Direction
  | .Left => .Right
  | .Right => .Left
  | .Up => .Down
  | .Down => .Up

/-- The head component, `struct SnekHead { direction, next_direction }`. -/
structure SnekHead where
  direction : Direction
  next_direction : Direction
deriving DecidableEq

/-- One step of the head position in a direction: the `match` on
`head.direction` inside `snek_movement` (Left: x-1, Right: x+1, Up: y+1,
Down: y-1). -/
def offsetPos (d : Direction) (p : Position) : Position :=
  match d with
  | .Left => { p with x := p.x - 1 }
  | .Right => { p with x := p.x + 1 }
  | .Up => { p with y := p.y + 1 }
  | .Down => { p with y := p.y - 1 }

/-- Simulation state: the `SnekHead` component of the head entity, the
`SnekSegments` resource as the head-first list of segment positions, the
`LastTailPosition` resource, the positions of live food entities, and the
pending `GrowthEvent` / `GameOverEvent` counts. -/
structure GameState where
  head : SnekHead
  segments : List Position
  lastTailPosition : Option Position
  foods : List Position
  growthEvents : Nat
  gameOverEvents : Nat
deriving DecidableEq

/-- Bounds check of the spec contract `is_in_bounds`: true iff
`0 ≤ x < WIDTH` and `0 ≤ y < HEIGHT` (the source inlines the negation of
this check in `snek_movement`). -/
def is_in_bounds (p : Position) : Bool :=
  0 ≤ p.x && p.x < WIDTH && 0 ≤ p.y && p.y < HEIGHT

/-- The movement system `snek_movement`: if a head exists (the snake is
nonempty), snapshot all segment positions, commit `next_direction` as the
current direction, offset the head by one cell, send a `GameOverEvent` when
the new head is out of bounds (`x < 0 || x as u32 >= WIDTH || y < 0 ||
y as u32 >= HEIGHT`, the sign tests short-circuit before the casts) and
another when the new head position occurs in the snapshot, shift each
segment `i ≥ 1` to the snapshot position of segment `i-1`, and record the
snapshot position of the last segment in `LastTailPosition`. -/
def snek_movement (s : GameState) : GameState :=
  match s.segments with
  | [] => s
  | p0 :: rest =>
    let segment_positions := p0 :: rest
    let dir := s.head.next_direction
    let head_pos := offsetPos dir p0
    let go_oob : Nat :=
      if head_pos.x < 0 ∨ WIDTH ≤ head_pos.x ∨ head_pos.y < 0 ∨ HEIGHT ≤ head_pos.y
      then 1 else 0
    let go_self : Nat := if head_pos ∈ segment_positions then 1 else 0
    { head := { direction := dir, next_direction := dir },
      segments := head_pos :: segment_positions.dropLast,
      lastTailPosition := segment_positions.getLast?,
      foods := s.foods,
      growthEvents := s.growthEvents,
      gameOverEvents := s.gameOverEvents + go_oob + go_self }

/-- Sampled state of the four movement keys (A, D, W, S). -/
structure KeyboardInput where
  a : Bool
  d : Bool
  w : Bool
  s : Bool
deriving DecidableEq

/-- The candidate direction resolved from the pressed keys inside
`snek_movement_input`: fixed priority A (Left) > D (Right) > W (Up) >
S (Down); if none is pressed, the current direction. -/
def resolveDirection (keys : KeyboardInput) (head : SnekHead) : Direction :=
  if keys.a then .Left
  else if keys.d then .Right
  else if keys.w then .Up
  else if keys.s then .Down
  else head.direction

/-- The input system `snek_movement_input`: the resolved candidate is
stored into `next_direction` only when it differs both from the current
direction's opposite and from the current direction itself. -/
def snek_movement_input (keys : KeyboardInput) (head : SnekHead) : SnekHead :=
  let direction := resolveDirection keys head
  if direction ≠ head.direction.opposite ∧ direction ≠ head.direction
  then { head with next_direction := direction }
  else head

/-- The position generator `gen` inside `food_spawner`:
`(random::<f32>() * WIDTH as f32) as i32` for each axis, with the random
draw passed in as a rational in `[0, 1)`; the cast truncates, which on the
non-negative products is the floor. -/
def genPos (r : ℚ × ℚ) : Position :=
  { x := (r.1 * (WIDTH : ℚ)).floor, y := (r.2 * (HEIGHT : ℚ)).floor }

/-- Rejection-sampling loop of `food_spawner`: draw positions until one is
not contained in the occupied (segment) positions.  The source loops
without bound on fresh randomness; here the draws are a finite list and
exhausting them yields `none`. -/
def spawnPosition : List (ℚ × ℚ) → List Position → Option Position
  | [], _ => none
  | r :: rs, occupied =>
    let pos := genPos r
    if pos ∈ occupied then spawnPosition rs occupied else some pos

/-- The food-spawning system `food_spawner`: rejection-sample a position
against the current segment positions and spawn one food entity there.  No
check against already-existing food is made. -/
def food_spawner (draws : List (ℚ × ℚ)) (s : GameState) : Option GameState :=
  (spawnPosition draws s.segments).map fun p => { s with foods := s.foods ++ [p] }

/-- The eating system `snek_eating`: for the head position and every food
whose position equals it, despawn that food and send a `GrowthEvent` (one
event per matching food). -/
def snek_eating (s : GameState) : GameState :=
  match s.segments with
  | [] => s
  | head_pos :: _ =>
    { s with
      foods := s.foods.filter fun f => f ≠ head_pos,
      growthEvents := s.growthEvents + s.foods.countP fun f => f = head_pos }

/-- The growth system `snek_growth`: if any `GrowthEvent` is pending, push
one new segment at `last_tail_position.0.unwrap()`; `none` models the
panic of that `unwrap` when `LastTailPosition` is empty.  The reader
drains the channel. -/
def snek_growth (s : GameState) : Option GameState :=
  if 0 < s.growthEvents then
    match s.lastTailPosition with
    | none => none
    | some q => some { s with segments := s.segments ++ [q], growthEvents := 0 }
  else some { s with growthEvents := 0 }

/-- The startup system `spawn_snek`: replace the segment list with a head
entity at (3,3) whose direction and buffered next direction are `Up`, and
one trailing segment at (3,2). -/
def spawn_snek (s : GameState) : GameState :=
  { s with
    head := { direction := .Up, next_direction := .Up },
    segments := [{ x := 3, y := 3 }, { x := 3, y := 2 }] }

/-- The game-over system `game_over`: if any `GameOverEvent` is pending,
despawn every food and segment entity and rerun `spawn_snek`.  The reader
drains the channel. -/
def game_over (s : GameState) : GameState :=
  if 0 < s.gameOverEvents then
    spawn_snek { s with foods := [], segments := [], gameOverEvents := 0 }
  else { s with gameOverEvents := 0 }

/-- One movement tick in the source's system order: input commit, then
`snek_movement`, then `snek_eating`, then `snek_growth`. -/
def movement_tick (keys : KeyboardInput) (s : GameState) : Option GameState :=
  snek_growth (snek_eating (snek_movement { s with head := snek_movement_input keys s.head }))

/-- Starting state of a play session: the snake as spawned by `spawn_snek`,
no food, no pending events, no recorded tail position. -/
def initState : GameState :=
  spawn_snek
    { head := { direction := .Up, next_direction := .Up },
      segments := [],
      lastTailPosition := none,
      foods := [],
      growthEvents := 0,
      gameOverEvents := 0 }

/-! Helper lemmas about the embedded definitions. -/

/-- The Batteries `Rat.floor` agrees with the Mathlib floor on `ℚ`. -/
theorem ratFloor_eq_intFloor (a : ℚ) : a.floor = ⌊a⌋ := by
  rw [Rat.floor_def', Rat.floor_def]

/-- Offsetting a position by one cell always changes it. -/
theorem offsetPos_ne (d : Direction) (p : Position) : offsetPos d p ≠ p := by
  cases p with
  | mk x y =>
    cases d <;> intro h <;> simp only [offsetPos] at h <;>
      injection h with hx hy <;> omega

/-- Characterisation of a failed bounds check. -/
theorem is_in_bounds_eq_false_iff (p : Position) :
    is_in_bounds p = false ↔ (p.x < 0 ∨ WIDTH ≤ p.x ∨ p.y < 0 ∨ HEIGHT ≤ p.y) := by
  simp only [is_in_bounds, Bool.and_eq_false_iff, decide_eq_false_iff_not, not_le, not_lt]
  constructor
  · intro h
    rcases h with ((h | h) | h) | h <;> omega
  · intro h
    rcases h with h | h | h | h <;> omega

/-- Unfolding of `snek_movement` on a nonempty snake. -/
theorem snek_movement_cons (s : GameState) (p0 : Position) (rest : List Position)
    (hseg : s.segments = p0 :: rest) :
    snek_movement s =
      { head := { direction := s.head.next_direction,
                  next_direction := s.head.next_direction },
        segments := offsetPos s.head.next_direction p0 :: (p0 :: rest).dropLast,
        lastTailPosition := (p0 :: rest).getLast?,
        foods := s.foods,
        growthEvents := s.growthEvents,
        gameOverEvents := s.gameOverEvents
          + (if (offsetPos s.head.next_direction p0).x < 0
                ∨ WIDTH ≤ (offsetPos s.head.next_direction p0).x
                ∨ (offsetPos s.head.next_direction p0).y < 0
                ∨ HEIGHT ≤ (offsetPos s.head.next_direction p0).y
             then 1 else 0)
          + (if offsetPos s.head.next_direction p0 ∈ p0 :: rest then 1 else 0) } := by
  rw [snek_movement, hseg]

/-- C1: after a movement tick on a snake of length at least 2, the head has
advanced by exactly one cell in the committed direction (Up: y+1, Down:
y-1, Left: x-1, Right: x+1), so exactly one coordinate changed by exactly
1; every segment `i ≥ 1` sits at the pre-move position of segment `i-1`;
and `LastTailPosition` holds the pre-move position of the old tail. -/
theorem snek_movement_advances_and_shifts (s : GameState) (p0 : Position)
    (rest : List Position) (hseg : s.segments = p0 :: rest) (_hn : rest ≠ []) :
    (snek_movement s).segments
        = offsetPos s.head.next_direction p0 :: (p0 :: rest).dropLast
    ∧ (s.head.next_direction = Direction.Up →
        (snek_movement s).segments.head? = some { p0 with y := p0.y + 1 })
    ∧ (s.head.next_direction = Direction.Down →
        (snek_movement s).segments.head? = some { p0 with y := p0.y - 1 })
    ∧ (s.head.next_direction = Direction.Left →
        (snek_movement s).segments.head? = some { p0 with x := p0.x - 1 })
    ∧ (s.head.next_direction = Direction.Right →
        (snek_movement s).segments.head? = some { p0 with x := p0.x + 1 })
    ∧ (((offsetPos s.head.next_direction p0).x = p0.x
          ∧ ((offsetPos s.head.next_direction p0).y = p0.y + 1
              ∨ (offsetPos s.head.next_direction p0).y = p0.y - 1))
        ∨ ((offsetPos s.head.next_direction p0).y = p0.y
          ∧ ((offsetPos s.head.next_direction p0).x = p0.x + 1
              ∨ (offsetPos s.head.next_direction p0).x = p0.x - 1)))
    ∧ (∀ i : Nat, i + 1 < (snek_movement s).segments.length →
        (snek_movement s).segments[i + 1]? = (p0 :: rest)[i]?)
    ∧ (snek_movement s).lastTailPosition
        = some ((p0 :: rest).getLast (List.cons_ne_nil p0 rest)) := by
  rw [snek_movement_cons s p0 rest hseg]
  refine ⟨rfl, ?_, ?_, ?_, ?_, ?_, ?_, ?_⟩
  · intro h; rw [h]; rfl
  · intro h; rw [h]; rfl
  · intro h; rw [h]; rfl
  · intro h; rw [h]; rfl
  · cases s.head.next_direction <;> simp [offsetPos]
  · intro i hi
    simp only [List.length_cons, List.length_dropLast] at hi
    have hi' : i < ((p0 :: rest).dropLast).length := by
      simp only [List.length_dropLast, List.length_cons]
      omega
    simp only [List.getElem?_cons_succ]
    rw [List.getElem?_eq_getElem hi', List.getElem_dropLast, List.getElem?_eq_getElem]
  · simp [List.getLast?_eq_getLast_of_ne_nil (List.cons_ne_nil p0 rest)]

/-- Witness for C1: one movement tick from the starting configuration
(head (3,3) facing Up, segment (3,2)) moves the head to (3,4), the segment
to (3,3), and records (3,2) as the vacated tail cell. -/
theorem snek_movement_advances_and_shifts_witness :
    (snek_movement initState).segments = [{ x := 3, y := 4 }, { x := 3, y := 3 }]
    ∧ (snek_movement initState).lastTailPosition = some { x := 3, y := 2 } := by
  have h := snek_movement_advances_and_shifts initState { x := 3, y := 3 }
    [{ x := 3, y := 2 }] (by decide) (by decide)
  refine ⟨?_, ?_⟩
  · rw [h.1]; decide
  · rw [h.2.2.2.2.2.2.2]; decide

/-- C2: a movement tick raises a GameOver signal iff the new head position
fails `is_in_bounds` or equals a position of the pre-move snapshot other
than the old head's own cell; and however many signals are raised, the
game-over handler has the same single effect. -/
theorem snek_movement_game_over_iff (s : GameState) (p0 : Position)
    (rest : List Position) (hseg : s.segments = p0 :: rest) :
    (s.gameOverEvents < (snek_movement s).gameOverEvents ↔
        (is_in_bounds (offsetPos s.head.next_direction p0) = false
          ∨ (offsetPos s.head.next_direction p0 ∈ p0 :: rest
              ∧ offsetPos s.head.next_direction p0 ≠ p0)))
    ∧ (∀ t : GameState, 0 < t.gameOverEvents →
        game_over t = game_over { t with gameOverEvents := 1 }) := by
  constructor
  · have hne : offsetPos s.head.next_direction p0 ≠ p0 := offsetPos_ne _ _
    have hproj : (snek_movement s).gameOverEvents
        = s.gameOverEvents
          + (if (offsetPos s.head.next_direction p0).x < 0
                ∨ WIDTH ≤ (offsetPos s.head.next_direction p0).x
                ∨ (offsetPos s.head.next_direction p0).y < 0
                ∨ HEIGHT ≤ (offsetPos s.head.next_direction p0).y
             then 1 else 0)
          + (if offsetPos s.head.next_direction p0 ∈ p0 :: rest then 1 else 0) := by
      rw [snek_movement_cons s p0 rest hseg]
    rw [hproj, is_in_bounds_eq_false_iff, and_iff_left hne]
    by_cases h1 : ((offsetPos s.head.next_direction p0).x < 0
        ∨ WIDTH ≤ (offsetPos s.head.next_direction p0).x
        ∨ (offsetPos s.head.next_direction p0).y < 0
        ∨ HEIGHT ≤ (offsetPos s.head.next_direction p0).y)
    · rw [if_pos h1]
      by_cases h2 : offsetPos s.head.next_direction p0 ∈ p0 :: rest
      · rw [if_pos h2]
        exact iff_of_true (by omega) (Or.inl h1)
      · rw [if_neg h2]
        exact iff_of_true (by omega) (Or.inl h1)
    · rw [if_neg h1]
      by_cases h2 : offsetPos s.head.next_direction p0 ∈ p0 :: rest
      · rw [if_pos h2]
        exact iff_of_true (by omega) (Or.inr h2)
      · rw [if_neg h2]
        exact iff_of_false (by omega) (by tauto)
  · intro t ht
    simp [game_over, ht]

/-- Witness for C2: moving Left from head (0,3) leaves the grid, so the
signal count rises, and the head cell (0,3) itself is excluded from the
self-collision comparison. -/
theorem snek_movement_game_over_iff_witness :
    (({ head := { direction := .Left, next_direction := .Left },
        segments := [{ x := 0, y := 3 }, { x := 1, y := 3 }],
        lastTailPosition := none, foods := [],
        growthEvents := 0, gameOverEvents := 0 } : GameState).gameOverEvents
      < (snek_movement
          { head := { direction := .Left, next_direction := .Left },
            segments := [{ x := 0, y := 3 }, { x := 1, y := 3 }],
            lastTailPosition := none, foods := [],
            growthEvents := 0, gameOverEvents := 0 }).gameOverEvents) := by
  have h := (snek_movement_game_over_iff
    { head := { direction := .Left, next_direction := .Left },
      segments := [{ x := 0, y := 3 }, { x := 1, y := 3 }],
      lastTailPosition := none, foods := [],
      growthEvents := 0, gameOverEvents := 0 }
    { x := 0, y := 3 } [{ x := 1, y := 3 }] (by decide)).1
  rw [h]
  left
  decide

/-- C3 counterexample: with current direction Up and buffered
next-direction Left, pressing W resolves the candidate Up, which differs
from Up's opposite, yet it is not stored — the buffer stays Left.  So "C
is stored iff C differs from opposite(D)" is false at this input. -/
theorem resolveDirection_current_not_stored :
    resolveDirection { a := false, d := false, w := true, s := false }
        { direction := .Up, next_direction := .Left }
      ≠ ({ direction := Direction.Up, next_direction := Direction.Left }
          : SnekHead).direction.opposite
    ∧ (snek_movement_input { a := false, d := false, w := true, s := false }
        { direction := .Up, next_direction := .Left }).next_direction
      ≠ resolveDirection { a := false, d := false, w := true, s := false }
          { direction := .Up, next_direction := .Left } := by
  decide

/-- C3 amended: the resolved candidate is stored as the buffered
next-direction iff it differs both from the current direction's opposite
and from the current direction itself; otherwise (reversal or
equal-to-current) the head, in particular the buffer, is left unchanged.
The current direction is never changed by the input system. -/
theorem snek_movement_input_stores_iff (keys : KeyboardInput) (head : SnekHead) :
    ((snek_movement_input keys head).next_direction = resolveDirection keys head
        ∧ (snek_movement_input keys head).direction = head.direction
        ∧ resolveDirection keys head ≠ head.direction.opposite
        ∧ resolveDirection keys head ≠ head.direction)
    ∨ (snek_movement_input keys head = head
        ∧ (resolveDirection keys head = head.direction.opposite
            ∨ resolveDirection keys head = head.direction)) := by
  by_cases h1 : resolveDirection keys head = head.direction.opposite
  · right
    refine ⟨?_, Or.inl h1⟩
    simp [snek_movement_input, h1]
  · by_cases h2 : resolveDirection keys head = head.direction
    · right
      refine ⟨?_, Or.inr h2⟩
      simp [snek_movement_input, h2]
    · left
      refine ⟨?_, ?_, h1, h2⟩ <;> simp [snek_movement_input, h1, h2]

/-- C5: whenever the resolved candidate is the exact opposite of the
current direction, the input system leaves the head — in particular the
buffered next-direction — unchanged. -/
theorem snek_movement_input_ignores_reversal (keys : KeyboardInput)
    (head : SnekHead) (h : resolveDirection keys head = head.direction.opposite) :
    snek_movement_input keys head = head := by
  simp [snek_movement_input, h]

/-- Witness for C5: pressing S while moving Up resolves Down, the opposite
of Up, and the head is unchanged. -/
theorem snek_movement_input_ignores_reversal_witness :
    resolveDirection { a := false, d := false, w := false, s := true }
        { direction := .Up, next_direction := .Up }
      = ({ direction := Direction.Up, next_direction := Direction.Up }
          : SnekHead).direction.opposite
    ∧ snek_movement_input { a := false, d := false, w := false, s := true }
        { direction := .Up, next_direction := .Up }
      = { direction := .Up, next_direction := .Up } :=
  ⟨by decide,
   snek_movement_input_ignores_reversal _ _ (by decide)⟩

/-- A play state in which one food entity already exists. -/
def foodState : GameState := { initState with foods := [{ x := 5, y := 5 }] }

/-- C4 counterexample: `food_spawner` spawns a new food even though one
already exists, leaving two food entities alive — so "a new food spawn
occurs only when no unconsumed food currently exists" is false at this
input. -/
theorem food_spawner_despite_existing_food :
    foodState.foods ≠ []
    ∧ food_spawner [((0 : ℚ), (0 : ℚ))] foodState
        = some { foodState with foods := [{ x := 5, y := 5 }, { x := 0, y := 0 }] }
    ∧ Option.map (fun t => t.foods.length)
        (food_spawner [((0 : ℚ), (0 : ℚ))] foodState)
        = some 2 := by
  refine ⟨by decide, ?_, ?_⟩
  all_goals
    norm_num [food_spawner, spawnPosition, genPos, Rat.floor_def',
      foodState, initState, spawn_snek, WIDTH, HEIGHT]

/-- C4 amended: every successful spawner run appends exactly one new food
entity regardless of whether food already exists, so food entities can
accumulate; the segment list is untouched. -/
theorem food_spawner_adds_one_food (draws : List (ℚ × ℚ)) (s s' : GameState)
    (h : food_spawner draws s = some s') :
    s'.foods.length = s.foods.length + 1
    ∧ (∃ p, s'.foods = s.foods ++ [p])
    ∧ s'.segments = s.segments := by
  unfold food_spawner at h
  cases hsp : spawnPosition draws s.segments with
  | none => rw [hsp] at h; simp at h
  | some p =>
    rw [hsp] at h
    simp only [Option.map_some', Option.some.injEq] at h
    refine ⟨?_, ⟨p, ?_⟩, ?_⟩ <;> rw [← h] <;> simp

/-- Witness for the amended C4: the concrete spawner run above adds one
food to the one already present. -/
theorem food_spawner_adds_one_food_witness :
    ({ foodState with foods := [{ x := 5, y := 5 }, { x := 0, y := 0 }] }
        : GameState).foods.length = foodState.foods.length + 1
    ∧ (∃ p, ({ foodState with foods := [{ x := 5, y := 5 }, { x := 0, y := 0 }] }
        : GameState).foods = foodState.foods ++ [p])
    ∧ ({ foodState with foods := [{ x := 5, y := 5 }, { x := 0, y := 0 }] }
        : GameState).segments = foodState.segments :=
  food_spawner_adds_one_food [((0 : ℚ), (0 : ℚ))] foodState
    { foodState with foods := [{ x := 5, y := 5 }, { x := 0, y := 0 }] }
    (by norm_num [food_spawner, spawnPosition, genPos, Rat.floor_def',
      foodState, initState, spawn_snek, WIDTH, HEIGHT])

/-- C6: when the head position coincides with a food position and a tail
cell was recorded, the eating-then-growth sequence despawns that food and
appends exactly one segment at the recorded `LastTailPosition`, so the
snake is exactly one longer and its new tail is that cell — even when
several foods (hence several Growth signals) match at once. -/
theorem snek_eating_growth_appends (s : GameState) (p0 q : Position)
    (rest : List Position) (hseg : s.segments = p0 :: rest)
    (hlast : s.lastTailPosition = some q) (hfood : p0 ∈ s.foods) :
    ∃ s', snek_growth (snek_eating s) = some s'
      ∧ s'.foods = s.foods.filter (fun f => f ≠ p0)
      ∧ p0 ∉ s'.foods
      ∧ s'.segments = s.segments ++ [q]
      ∧ s'.segments.length = s.segments.length + 1
      ∧ s'.segments.getLast? = some q := by
  have hcount : 0 < s.foods.countP fun f => f = p0 :=
    List.countP_pos_iff.mpr ⟨p0, hfood, by simp⟩
  have he : snek_eating s = { s with
      foods := s.foods.filter fun f => f ≠ p0,
      growthEvents := s.growthEvents + s.foods.countP fun f => f = p0 } := by
    rw [snek_eating, hseg]
  have hg : snek_growth (snek_eating s) = some { s with
      foods := s.foods.filter fun f => f ≠ p0,
      segments := s.segments ++ [q],
      growthEvents := 0 } := by
    rw [he]
    unfold snek_growth
    rw [if_pos (show 0 < s.growthEvents + s.foods.countP (fun f => f = p0) by omega)]
    show (match s.lastTailPosition with
      | none => none
      | some q => some _) = _
    rw [hlast]
  refine ⟨_, hg, rfl, ?_, rfl, ?_, ?_⟩
  · simp
  · simp
  · simp [List.getLast?_concat]

/-- Witness for C6: head at (3,4) on a food cell with recorded tail cell
(3,2); the food disappears and a segment appears at (3,2). -/
theorem snek_eating_growth_appends_witness :
    ∃ s', snek_growth (snek_eating
        { head := { direction := .Up, next_direction := .Up },
          segments := [{ x := 3, y := 4 }, { x := 3, y := 3 }],
          lastTailPosition := some { x := 3, y := 2 },
          foods := [{ x := 3, y := 4 }],
          growthEvents := 0, gameOverEvents := 0 }) = some s'
      ∧ s'.foods = [{ x := 3, y := 4 }].filter
          (fun f => f ≠ ({ x := 3, y := 4 } : Position))
      ∧ ({ x := 3, y := 4 } : Position) ∉ s'.foods
      ∧ s'.segments = [{ x := 3, y := 4 }, { x := 3, y := 3 }]
          ++ [{ x := 3, y := 2 }]
      ∧ s'.segments.length
          = ([{ x := 3, y := 4 }, { x := 3, y := 3 }] : List Position).length + 1
      ∧ s'.segments.getLast? = some { x := 3, y := 2 } :=
  snek_eating_growth_appends
    { head := { direction := .Up, next_direction := .Up },
      segments := [{ x := 3, y := 4 }, { x := 3, y := 3 }],
      lastTailPosition := some { x := 3, y := 2 },
      foods := [{ x := 3, y := 4 }],
      growthEvents := 0, gameOverEvents := 0 }
    { x := 3, y := 4 } { x := 3, y := 2 } [{ x := 3, y := 3 }]
    rfl rfl (by decide)

/-- The rejection-sampling loop only ever answers with an unoccupied
position generated from one of the draws. -/
theorem spawnPosition_not_occupied (draws : List (ℚ × ℚ)) :
    ∀ (occ : List Position) (p : Position),
      spawnPosition draws occ = some p → p ∉ occ ∧ ∃ r ∈ draws, p = genPos r := by
  induction draws with
  | nil =>
    intro occ p h
    simp [spawnPosition] at h
  | cons r rs ih =>
    intro occ p h
    simp only [spawnPosition] at h
    by_cases hmem : genPos r ∈ occ
    · rw [if_pos hmem] at h
      obtain ⟨hnot, r', hr', hp⟩ := ih occ p h
      exact ⟨hnot, r', List.mem_cons_of_mem _ hr', hp⟩
    · rw [if_neg hmem] at h
      cases h
      exact ⟨hmem, r, List.mem_cons_self r rs, rfl⟩

/-- A generated position is always inside the grid when the raw draws lie
in `[0, 1)`. -/
theorem genPos_is_in_bounds (r : ℚ × ℚ) (h1 : 0 ≤ r.1) (h2 : r.1 < 1)
    (h3 : 0 ≤ r.2) (h4 : r.2 < 1) : is_in_bounds (genPos r) = true := by
  have hW : ((WIDTH : ℤ) : ℚ) = 30 := by norm_num [WIDTH]
  have hH : ((HEIGHT : ℤ) : ℚ) = 30 := by norm_num [HEIGHT]
  have hx0 : (0 : ℤ) ≤ ⌊r.1 * ((WIDTH : ℤ) : ℚ)⌋ := by
    apply Int.le_floor.mpr
    rw [hW]
    push_cast
    exact mul_nonneg h1 (by norm_num)
  have hx1 : ⌊r.1 * ((WIDTH : ℤ) : ℚ)⌋ < WIDTH := by
    apply Int.floor_lt.mpr
    rw [hW]
    show r.1 * 30 < ((WIDTH : ℤ) : ℚ)
    rw [hW]
    nlinarith
  have hy0 : (0 : ℤ) ≤ ⌊r.2 * ((HEIGHT : ℤ) : ℚ)⌋ := by
    apply Int.le_floor.mpr
    rw [hH]
    push_cast
    exact mul_nonneg h3 (by norm_num)
  have hy1 : ⌊r.2 * ((HEIGHT : ℤ) : ℚ)⌋ < HEIGHT := by
    apply Int.floor_lt.mpr
    rw [hH]
    show r.2 * 30 < ((HEIGHT : ℤ) : ℚ)
    rw [hH]
    nlinarith
  simp only [genPos, is_in_bounds, ratFloor_eq_intFloor,
    Bool.and_eq_true, decide_eq_true_eq]
  exact ⟨⟨⟨hx0, hx1⟩, hy0⟩, hy1⟩

/-- C7: every successfully spawned food position lies inside the grid and
is not occupied by any current snake segment. -/
theorem food_spawner_in_bounds_and_unoccupied (draws : List (ℚ × ℚ))
    (s s' : GameState)
    (hdr : ∀ r ∈ draws, 0 ≤ r.1 ∧ r.1 < 1 ∧ 0 ≤ r.2 ∧ r.2 < 1)
    (h : food_spawner draws s = some s') :
    ∃ p, s'.foods = s.foods ++ [p] ∧ is_in_bounds p = true ∧ p ∉ s.segments := by
  unfold food_spawner at h
  cases hsp : spawnPosition draws s.segments with
  | none => rw [hsp] at h; simp at h
  | some p =>
    rw [hsp] at h
    simp only [Option.map_some', Option.some.injEq] at h
    obtain ⟨hnot, r, hr, hp⟩ := spawnPosition_not_occupied draws s.segments p hsp
    obtain ⟨h1, h2, h3, h4⟩ := hdr r hr
    refine ⟨p, ?_, ?_, hnot⟩
    · rw [← h]
    · rw [hp]
      exact genPos_is_in_bounds r h1 h2 h3 h4

/-- Witness for C7: the draw (1/2, 1/2) spawns food at (15,15), inside the
grid and away from the starting snake. -/
theorem food_spawner_in_bounds_and_unoccupied_witness :
    ∃ p, ({ initState with foods := [{ x := 15, y := 15 }] } : GameState).foods
        = initState.foods ++ [p]
      ∧ is_in_bounds p = true ∧ p ∉ initState.segments :=
  food_spawner_in_bounds_and_unoccupied [((1 : ℚ)/2, (1 : ℚ)/2)] initState
    { initState with foods := [{ x := 15, y := 15 }] }
    (by norm_num)
    (by norm_num [food_spawner, spawnPosition, genPos, Rat.floor_def',
      initState, spawn_snek, WIDTH, HEIGHT])

/-- C8: on a pending GameOver signal the handler destroys all food and
segment entities and reinitializes the snake to its starting
configuration: head (3,3) with direction Up and buffered next-direction
Up, plus one trailing segment at (3,2). -/
theorem game_over_resets_to_start (s : GameState) (h : 0 < s.gameOverEvents) :
    game_over s = { head := { direction := .Up, next_direction := .Up },
                    segments := [{ x := 3, y := 3 }, { x := 3, y := 2 }],
                    lastTailPosition := s.lastTailPosition,
                    foods := [],
                    growthEvents := s.growthEvents,
                    gameOverEvents := 0 } := by
  simp [game_over, spawn_snek, h]

/-- Scenario B of the spec: head at (0,3) facing Left with one segment at
(1,3). -/
def scenarioB : GameState :=
  { head := { direction := .Left, next_direction := .Left },
    segments := [{ x := 0, y := 3 }, { x := 1, y := 3 }],
    lastTailPosition := none, foods := [],
    growthEvents := 0, gameOverEvents := 0 }

/-- Witness for C8: after scenario B's movement tick (head moves to
(-1,3), out of bounds), the handler resets the snake to the starting
configuration. -/
theorem game_over_resets_to_start_witness :
    game_over (snek_movement scenarioB)
      = { head := { direction := .Up, next_direction := .Up },
          segments := [{ x := 3, y := 3 }, { x := 3, y := 2 }],
          lastTailPosition := some { x := 1, y := 3 },
          foods := [], growthEvents := 0, gameOverEvents := 0 } := by
  rw [game_over_resets_to_start (snek_movement scenarioB) (by decide)]
  decide

/-- C9: a movement tick (movement, then eating, then growth) never shrinks
the snake and grows it by at most one, so starting from length at least 2
the length stays at least 2 and is non-decreasing; movement and eating
preserve the segment count on their own; the game-over reset restores
length exactly 2, as does the initial spawn. -/
theorem snake_length_invariants (keys : KeyboardInput) (s s' : GameState)
    (hlen : 2 ≤ s.segments.length) (h : movement_tick keys s = some s') :
    (s.segments.length ≤ s'.segments.length
      ∧ 2 ≤ s'.segments.length
      ∧ s'.segments.length ≤ s.segments.length + 1)
    ∧ (∀ t : GameState, (snek_movement t).segments.length = t.segments.length)
    ∧ (∀ t : GameState, (snek_eating t).segments = t.segments)
    ∧ (∀ t : GameState, 0 < t.gameOverEvents → (game_over t).segments.length = 2)
    ∧ initState.segments.length = 2 := by
  have hmov : ∀ t : GameState, (snek_movement t).segments.length = t.segments.length := by
    intro t
    cases hseg : t.segments with
    | nil => simp [snek_movement, hseg]
    | cons p0 rest =>
      rw [snek_movement_cons t p0 rest hseg]
      simp only [List.length_cons, List.length_dropLast]
      omega
  have heat : ∀ t : GameState, (snek_eating t).segments = t.segments := by
    intro t
    cases hseg : t.segments with
    | nil => simp [snek_eating, hseg]
    | cons p0 rest => rw [snek_eating, hseg]
  have hgrow : ∀ t t' : GameState, snek_growth t = some t' →
      t'.segments = t.segments ∨ ∃ q, t'.segments = t.segments ++ [q] := by
    intro t t' hg
    unfold snek_growth at hg
    by_cases hc : 0 < t.growthEvents
    · rw [if_pos hc] at hg
      cases hl : t.lastTailPosition with
      | none => rw [hl] at hg; simp at hg
      | some q =>
        rw [hl] at hg
        simp only [Option.some.injEq] at hg
        right
        exact ⟨q, by rw [← hg]⟩
    · rw [if_neg hc] at hg
      simp only [Option.some.injEq] at hg
      left
      rw [← hg]
  refine ⟨?_, hmov, heat, ?_, ?_⟩
  · unfold movement_tick at h
    have h1 := hmov { s with head := snek_movement_input keys s.head }
    have hbase : ({ s with head := snek_movement_input keys s.head }
        : GameState).segments = s.segments := rfl
    rw [hbase] at h1
    have h2 := heat (snek_movement { s with head := snek_movement_input keys s.head })
    rcases hgrow _ _ h with h3 | ⟨q, h3⟩
    · rw [h3, h2, h1]
      exact ⟨le_refl _, hlen, by omega⟩
    · rw [h3, h2]
      simp only [List.length_append, List.length_cons, List.length_nil, h1]
      omega
  · intro t ht
    simp [game_over, spawn_snek, ht]
  · decide

/-- The state reached from the starting configuration by one movement tick
with no keys pressed. -/
def tickedInit : GameState :=
  { head := { direction := .Up, next_direction := .Up },
    segments := [{ x := 3, y := 4 }, { x := 3, y := 3 }],
    lastTailPosition := some { x := 3, y := 2 },
    foods := [], growthEvents := 0, gameOverEvents := 0 }

/-- Witness for C9: the first no-input tick from the starting state keeps
the length at 2. -/
theorem snake_length_invariants_witness :
    (initState.segments.length ≤ tickedInit.segments.length
      ∧ 2 ≤ tickedInit.segments.length
      ∧ tickedInit.segments.length ≤ initState.segments.length + 1)
    ∧ (∀ t : GameState, (snek_movement t).segments.length = t.segments.length)
    ∧ (∀ t : GameState, (snek_eating t).segments = t.segments)
    ∧ (∀ t : GameState, 0 < t.gameOverEvents → (game_over t).segments.length = 2)
    ∧ initState.segments.length = 2 :=
  snake_length_invariants { a := false, d := false, w := false, s := false }
    initState tickedInit (by decide) (by decide)

/-- C10: the `unwrap` of `LastTailPosition` inside `snek_growth` cannot
panic during a movement tick: `snek_movement` always records a tail
position before `snek_eating` can raise a Growth signal, so the tick
function never reaches the `none` (panic) branch. -/
theorem snek_growth_unwrap_never_panics (keys : KeyboardInput) (s : GameState)
    (h : s.segments ≠ []) : (movement_tick keys s).isSome = true := by
  obtain ⟨p0, rest, hseg⟩ : ∃ p0 rest, s.segments = p0 :: rest := by
    cases hs : s.segments with
    | nil => exact absurd hs h
    | cons a l => exact ⟨a, l, rfl⟩
  have hsome : ∀ t : GameState, t.lastTailPosition.isSome = true →
      (snek_growth t).isSome = true := by
    intro t ht
    unfold snek_growth
    by_cases hc : 0 < t.growthEvents
    · rw [if_pos hc]
      cases hl : t.lastTailPosition with
      | none => rw [hl] at ht; simp at ht
      | some q => rfl
    · rw [if_neg hc]
      rfl
  have hpres : ∀ t : GameState, (snek_eating t).lastTailPosition = t.lastTailPosition := by
    intro t
    cases hs : t.segments with
    | nil => rw [snek_eating, hs]
    | cons a l => rw [snek_eating, hs]
  have hseg' : ({ s with head := snek_movement_input keys s.head }
      : GameState).segments = p0 :: rest := hseg
  unfold movement_tick
  apply hsome
  rw [hpres]
  rw [snek_movement_cons _ p0 rest hseg']
  rw [List.getLast?_eq_getLast_of_ne_nil (List.cons_ne_nil p0 rest)]
  rfl

/-- Witness for C10: the first tick from the starting state completes
without hitting the panic branch. -/
theorem snek_growth_unwrap_never_panics_witness :
    (movement_tick { a := false, d := false, w := false, s := false }
      initState).isSome = true :=
  snek_growth_unwrap_never_panics
    { a := false, d := false, w := false, s := false } initState (by decide)
